import Mathlib

/-!
Verification of the `prerender-plugin-fscache` filesystem cache
(`src/index.js`).  The JavaScript code is shallowly embedded: the
filesystem is an explicit state (an association list from path strings to
file records plus a directory list), asynchronous functions become pure
state-passing functions, and fallible filesystem primitives return an
explicit result that either succeeds or carries a raised error together
with the state at the moment of the throw.  Time is an explicit `now`
parameter in milliseconds (JavaScript `new Date()`); the TTL is in
seconds, exactly as in the source.

External collaborators (node's `zlib`, `JSON`, `crypto`) are not part of
the repository; they are modelled at their interface: `gzip`/`gunzip` as
an injective compression with a recognizable magic prefix (so that
decompression can fail on non-gzip bytes), `JSON.stringify`/`JSON.parse`
of the metadata record as an injective constructor with an explicit
corrupt alternative, and the SHA-1 hex digest as an injective placeholder
digest (no claim depends on the digest's value).
-/

namespace Fscache

/-- Bytes of a body buffer (a node `Buffer`). -/
abbrev Bytes := List Nat

/-- Model of `zlib.gzip`: injective compression marked by the gzip magic
bytes `31, 139`. -/
def gzip (b : Bytes) : Bytes := 31 :: 139 :: b

/-- Model of `zlib.gunzip`: succeeds exactly on outputs of `gzip`,
recovering the original bytes; fails (the promise rejects) on anything
else. -/
def gunzip : Bytes → Option Bytes
  | 31 :: 139 :: rest => some rest
  | _ => none

/-- The metadata record `{ statusCode, headers }` that `set` serializes
into the `.meta` file (`JSON.stringify`) and `get` parses back
(`JSON.parse`). -/
structure Metadata where
  statusCode : Int
  headers : List (String × String)
deriving DecidableEq, Repr

/-- Content of a file on disk.  `.data` files hold raw bytes; `.meta`
files hold either the JSON serialization of a metadata record or
unparsable text (`corrupt`), which makes `JSON.parse` failure
representable. -/
inductive FileContent where
  | bytes (b : Bytes)
  | metaJson (m : Metadata)
  | corrupt
deriving DecidableEq, Repr

/-- Model of `JSON.parse` applied to a `.meta` file's text. -/
def parseMeta : FileContent → Option Metadata
  | .metaJson m => some m
  | _ => none

/-- Model of `gunzip` applied to a `.data` file's raw content. -/
def gunzipContent : FileContent → Option Bytes
  | .bytes b => gunzip b
  | _ => none

/-- A file on disk: its modification time (milliseconds since epoch, as
`fs.stat`'s `mtime`) and its content. -/
structure FileRecord where
  mtime : Nat
  content : FileContent
deriving DecidableEq, Repr

/-- A pending `setTimeout` callback: `set` schedules
`removeExpiredCacheUrl(url)` and the cleanup sweep schedules
`removeExpiredCacheFile(path)`. -/
inductive TimerAction where
  | removeUrl (url : String)
  | removeFile (path : String)
deriving DecidableEq, Repr

/-- The filesystem state.  `files` maps each existing path to its record;
`dirs` lists existing directories; `unlinkFails` is the set of paths on
which `fs.unlink` raises an I/O error other than absence (e.g. `EACCES`),
modelling the spec's "deletion failure"; `timers` are the pending
`setTimeout` callbacks with their firing time. -/
structure FS where
  files : List (String × FileRecord)
  dirs : List String
  unlinkFails : List String
  timers : List (Nat × TimerAction)
deriving DecidableEq, Repr

/-- The empty filesystem. -/
def FS.empty : FS := ⟨[], [], [], []⟩

/-- Result of an `async` operation: `ok` is normal completion, `error` is
a raised (uncaught) exception; both carry the filesystem state at that
point, since side effects performed before a throw persist. -/
inductive OpResult (α : Type) where
  | ok (val : α) (fs : FS)
  | error (err : String) (fs : FS)
deriving DecidableEq, Repr

/-- Whether the operation completed without raising. -/
def OpResult.isOk {α : Type} : OpResult α → Bool
  | .ok _ _ => true
  | .error _ _ => false

/-- Lookup of a path in the filesystem. -/
def FS.findFile (fs : FS) (p : String) : Option FileRecord :=
  (fs.files.find? (fun e => e.1 == p)).map (·.2)

/-- Model of a successful `fs.access(p)` on a file: the path exists. -/
def FS.hasFile (fs : FS) (p : String) : Bool :=
  (fs.findFile p).isSome

/-- Model of `fs.stat(p).mtime` (absent file gives `none`, i.e. a raised
`ENOENT`, distinguished by the caller's context). -/
def FS.statMtime (fs : FS) (p : String) : Option Nat :=
  (fs.findFile p).map (·.mtime)

/-- Model of `fs.readFile(p)` (absent file gives `none`). -/
def FS.readFile (fs : FS) (p : String) : Option FileContent :=
  (fs.findFile p).map (·.content)

/-- Model of `fs.writeFile(p, c)`: replaces or creates the file, stamping
the current time as its mtime. -/
def FS.writeFile (fs : FS) (p : String) (c : FileContent) (now : Nat) : FS :=
  { fs with files := (p, ⟨now, c⟩) :: fs.files.filter (fun e => e.1 != p) }

/-- Model of `fs.unlink(p)`: raises `EACCES` on a path in `unlinkFails`,
raises `ENOENT` on an absent path, otherwise removes the file. -/
def FS.unlink (fs : FS) (p : String) : OpResult Unit :=
  if fs.unlinkFails.contains p then .error "EACCES" fs
  else if fs.hasFile p then
    .ok () { fs with files := fs.files.filter (fun e => e.1 != p) }
  else .error "ENOENT" fs

/-- JavaScript-style prefix test on path strings. -/
def strHasPrefix (pre s : String) : Bool :=
  pre.data.isPrefixOf s.data

/-- Whether some existing file lies strictly inside directory `dir`. -/
def FS.dirHasFiles (fs : FS) (dir : String) : Bool :=
  fs.files.any (fun e => strHasPrefix (dir ++ "/") e.1)

/-- Embedding of `removeDirectoryIfEmpty` (src/index.js:77-86): reads the
directory and removes it when empty; every failure (absent directory,
lost race) is swallowed by the catch-all, so the operation never
raises. -/
def removeDirectoryIfEmpty (fs : FS) (dir : String) : FS :=
  if fs.dirs.contains dir && !fs.dirHasFiles dir then
    { fs with dirs := fs.dirs.filter (fun d => d != dir) }
  else fs

/-- Embedding of `ensureDirExists` (src/index.js:65-75): `fs.access` then
`fs.mkdir` recursive on failure (directory creation is modelled as
infallible; a creation error would only be logged). -/
def ensureDirExists (fs : FS) (dir : String) : FS :=
  if fs.dirs.contains dir then fs else { fs with dirs := dir :: fs.dirs }

/-- Model of node's `crypto` SHA-1 hex digest (src/index.js:230-232,
`urlHash`): an injective placeholder digest — no claim depends on the
digest's value, only on its determinism within a process. -/
def urlHash (url : String) : String := "af" ++ url

/-- JavaScript `hash.substring(0, 2)`. -/
def substring2 (s : String) : String := (s.toList.take 2).asString

/-- `path.join` of two components. -/
def pathJoin (a b : String) : String := a ++ "/" ++ b

/-- `path.dirname`: everything before the final slash (all paths formed
by this cache contain one). -/
def dirname (p : String) : String :=
  (((p.data.reverse.dropWhile (fun c => c ≠ '/')).drop 1).reverse).asString

/-- JavaScript `name.endsWith(suffix)`. -/
def endsWithStr (s suffix : String) : Bool :=
  suffix.data.isSuffixOf s.data

/-- Embedding of `filenameForUrl` (src/index.js:159-163): the base path
`<cachePath>/<first-2-hex-chars>/<hash>` of the entry's file pair. -/
def filenameForUrl (cachePath url : String) : String :=
  pathJoin (pathJoin cachePath (substring2 (urlHash url))) (urlHash url)

/-- Lower-casing of one character, as JavaScript
`String.prototype.toLowerCase` acts on the ASCII range (header names are
ASCII). -/
def lowerChar (c : Char) : Char :=
  if 65 ≤ c.toNat ∧ c.toNat ≤ 90 then Char.ofNat (c.toNat + 32) else c

/-- Model of JavaScript `key.toLowerCase()`. -/
def toLowerCase (s : String) : String := (s.data.map lowerChar).asString

/-- The deny-list `nonCacheableHeaders` (src/index.js:27-63). -/
def nonCacheableHeaders : List String :=
  ["age", "authorization", "cf-cache-status", "cf-ray", "cache-control",
   "connection", "content-encoding", "content-security-policy", "cookie",
   "date", "etag", "expect-ct", "expires", "feature-policy",
   "last-modified", "nel", "proxy-authorization", "referrer-policy",
   "report-to", "server", "set-cookie", "strict-transport-security",
   "transfer-encoding", "vary", "via", "x-cache", "x-cache-hit",
   "x-content-type-options", "x-correlation-id", "x-edge-ip",
   "x-edge-location", "x-edge-origin-shield-skipped", "x-frame-options",
   "x-powered-by", "x-request-id"]

/-- The header filter inside `set` (src/index.js:168-172): keep a header
iff its lower-cased name is not in the deny-list; the key itself is
stored unchanged. -/
def filteredHeaders (headers : List (String × String)) :
    List (String × String) :=
  headers.filter
    (fun kv => !(nonCacheableHeaders.contains (toLowerCase kv.1)))

/-- Embedding of `set` (src/index.js:165-188): gzip the body, filter the
headers, ensure the shard directory, write `.data` then `.meta`, then
schedule `removeExpiredCacheUrl(url)` after TTL seconds.  Writes are
modelled as infallible, so the try/catch around them never triggers. -/
def set (cachePath : String) (ttl : Nat) (url : String) (statusCode : Int)
    (headers : List (String × String)) (value : Bytes) (now : Nat)
    (fs : FS) : FS :=
  let filename := filenameForUrl cachePath url
  let compressedValue := gzip value
  let metadata : Metadata := ⟨statusCode, filteredHeaders headers⟩
  let fs1 := ensureDirExists fs (dirname filename)
  let fs2 := fs1.writeFile (filename ++ ".data") (.bytes compressedValue) now
  let fs3 := fs2.writeFile (filename ++ ".meta") (.metaJson metadata) now
  { fs3 with timers := (now + ttl * 1000, .removeUrl url) :: fs3.timers }

/-- Embedding of `isExpiredBasedOnMtime` (src/index.js:190-194):
`(new Date() - mtime) / 1000 >= ttl`, times in milliseconds, TTL in
seconds. -/
def isExpiredBasedOnMtime (ttl now mtime : Nat) : Bool :=
  ttl ≤ (now - mtime) / 1000

/-- The entry returned by a successful `get`:
`{ ...metadata, content }` (src/index.js:224). -/
structure Entry where
  statusCode : Int
  headers : List (String × String)
  content : Bytes
deriving DecidableEq, Repr

/-- Embedding of `get` (src/index.js:201-228).  Check that both files
exist (either absent: miss); check expiry of the `.meta` mtime; when
expired, unlink `.meta` then `.data` — these unlinks are NOT inside a
try/catch in the source, so a deletion failure propagates as a raised
error; otherwise read and decode both files inside a try/catch, any
decode failure giving a miss. -/
def get (cachePath : String) (ttl : Nat) (url : String) (now : Nat)
    (fs : FS) : OpResult (Option Entry) :=
  let filename := filenameForUrl cachePath url
  if !(fs.hasFile (filename ++ ".data") && fs.hasFile (filename ++ ".meta"))
  then .ok none fs
  else
    match fs.statMtime (filename ++ ".meta") with
    | none => .ok none fs
    | some mtime =>
      if isExpiredBasedOnMtime ttl now mtime then
        match fs.unlink (filename ++ ".meta") with
        | .error e fs1 => .error e fs1
        | .ok _ fs1 =>
          match fs1.unlink (filename ++ ".data") with
          | .error e fs2 => .error e fs2
          | .ok _ fs2 => .ok none fs2
      else
        match fs.readFile (filename ++ ".data") with
        | none => .ok none fs
        | some dataContent =>
          match gunzipContent dataContent with
          | none => .ok none fs
          | some content =>
            match fs.readFile (filename ++ ".meta") with
            | none => .ok none fs
            | some metaContent =>
              match parseMeta metaContent with
              | none => .ok none fs
              | some m => .ok (some ⟨m.statusCode, m.headers, content⟩) fs

/-- Embedding of `removeExpiredCacheUrl` (src/index.js:234-243): unlink
`.data` then `.meta` then remove the shard directory if empty, the whole
body inside a try/catch that logs and swallows any error — so the
operation never raises, and a throw prevents the remaining steps. -/
def removeExpiredCacheUrl (cachePath url : String) (fs : FS) :
    OpResult Unit :=
  let filename := filenameForUrl cachePath url
  match fs.unlink (filename ++ ".data") with
  | .error _ fs1 => .ok () fs1
  | .ok _ fs1 =>
    match fs1.unlink (filename ++ ".meta") with
    | .error _ fs2 => .ok () fs2
    | .ok _ fs2 => .ok () (removeDirectoryIfEmpty fs2 (dirname filename))

/-- Embedding of `removeExpiredCacheFile` (src/index.js:245-252): unlink
the single given file then remove its directory if empty, inside a
try/catch that swallows any error. -/
def removeExpiredCacheFile (filename : String) (fs : FS) : FS :=
  match fs.unlink filename with
  | .error _ fs1 => fs1
  | .ok _ fs1 => removeDirectoryIfEmpty fs1 (dirname filename)

/-- One file step of the cleanup sweep (src/index.js:127-145): for a
`.data` or `.meta` file, stat it and either delete it now (expired) or
schedule its individual deletion for the remaining TTL.  An error (file
vanished before the stat) is isolated and logged. -/
def sweepFile (ttl now : Nat) (fs : FS) (p : String) : FS :=
  if endsWithStr p ".data" || endsWithStr p ".meta" then
    match fs.statMtime p with
    | some mtime =>
      if isExpiredBasedOnMtime ttl now mtime then
        removeExpiredCacheFile p fs
      else
        { fs with
          timers := (now + (ttl * 1000 - (now - mtime)), .removeFile p)
            :: fs.timers }
    | none => fs
  else fs

/-- Embedding of `cleanUpCacheDirectory` (src/index.js:114-157) on the
flat filesystem model: the recursive walk over the (two-level) tree under
`dirPath` visits exactly the files whose path lies under it, applying
`sweepFile` to each; afterwards emptied directories under the root are
removed. -/
def cleanUpCacheDirectory (ttl now : Nat) (dirPath : String) (fs : FS) :
    FS :=
  let paths :=
    (fs.files.filter (fun e => strHasPrefix (dirPath ++ "/") e.1)).map (·.1)
  let fs1 := paths.foldl (sweepFile ttl now) fs
  (fs1.dirs.filter (fun d => strHasPrefix (dirPath ++ "/") d)).foldl
    removeDirectoryIfEmpty fs1

/-- The default `CACHE_STATUS_CODES` allow-list (src/index.js:24-26),
used when the environment does not configure one. -/
def CACHE_STATUS_CODES : List Int :=
  [200, 301, 302, 303, 304, 307, 308, 404]

/-- The prerender state attached to a request: `req.prerender.url`,
`.statusCode`, `.headers`, `.content` (the body bytes;
`req.prerender.headers || {}` and `|| ""` defaults are modelled by the
fields being total). -/
structure Prerender where
  url : String
  statusCode : Int
  headers : List (String × String)
  content : Bytes
deriving DecidableEq, Repr

/-- An inbound request as the plugin sees it: `req.method`,
`req.headers` (node lower-cases inbound header names), the mutable
`req.fromCache` flag, and `req.prerender`. -/
structure Req where
  method : String
  headers : List (String × String)
  fromCache : Bool
  prerender : Prerender
deriving DecidableEq, Repr

/-- JavaScript `req.headers[name]`: first binding of the name, if any. -/
def headerLookup (headers : List (String × String)) (name : String) :
    Option String :=
  (headers.find? (fun e => e.1 == name)).map (·.2)

/-- What `requestReceived` does with the pipeline: `next` passes the
request on (a miss from the Facade's perspective); `send` short-circuits
with the cached status, the replayed headers (set via `res.setHeader`)
and the decompressed body. -/
inductive Action where
  | next
  | send (statusCode : Int) (headers : List (String × String))
      (content : Bytes)
deriving DecidableEq, Repr

/-- Embedding of the Facade's lookup hook `requestReceived`
(src/index.js:263-287): non-GET methods skip the cache; a
`Cache-Control: no-cache` request header skips the lookup entirely;
otherwise `get` decides, a hit marking `req.fromCache` and
short-circuiting the pipeline.  An error raised by `get` is not caught
and propagates. -/
def requestReceived (cachePath : String) (ttl : Nat) (now : Nat)
    (req : Req) (fs : FS) : OpResult (Req × Action) :=
  if req.method != "GET" then .ok (req, .next) fs
  else if headerLookup req.headers "cache-control" == some "no-cache" then
    .ok (req, .next) fs
  else
    match get cachePath ttl req.prerender.url now fs with
    | .error e fs1 => .error e fs1
    | .ok none fs1 => .ok (req, .next) fs1
    | .ok (some entry) fs1 =>
      .ok ({ req with fromCache := true },
           .send entry.statusCode entry.headers entry.content) fs1

/-- Embedding of the Facade's store hook `beforeSend`
(src/index.js:288-308): `set` is invoked exactly when the method is GET,
the response status code is in the configured allow-list, and the
response was not served from cache.  The returned flag records whether
`set` was called. -/
def beforeSend (cachePath : String) (ttl : Nat)
    (cacheStatusCodes : List Int) (now : Nat) (req : Req) (fs : FS) :
    Bool × FS :=
  if req.method == "GET"
      && cacheStatusCodes.contains req.prerender.statusCode
      && !req.fromCache then
    (true,
     set cachePath ttl req.prerender.url req.prerender.statusCode
       req.prerender.headers req.prerender.content now fs)
  else (false, fs)

/-! Concrete states used to evaluate the operations at specific inputs. -/

/-- A cache state holding the entry for URL `"u"` under root `"c"` whose
two files were written five seconds apart (`.data` at 0 ms, `.meta` at
5000 ms), as a `set` racing with other writes can produce. -/
def skewedPairFS : FS :=
  { files := [(filenameForUrl "c" "u" ++ ".data", ⟨0, .bytes (gzip [104])⟩),
              (filenameForUrl "c" "u" ++ ".meta",
               ⟨5000, .metaJson ⟨200, []⟩⟩)],
    dirs := [dirname (filenameForUrl "c" "u")],
    unlinkFails := [],
    timers := [] }

/-- A cache state holding an expired entry for URL `"u"` whose `.meta`
file cannot be unlinked (the filesystem raises `EACCES` on it). -/
def faultedExpiredFS : FS :=
  { files := [(filenameForUrl "c" "u" ++ ".data", ⟨0, .bytes (gzip [104])⟩),
              (filenameForUrl "c" "u" ++ ".meta", ⟨0, .metaJson ⟨200, []⟩⟩)],
    dirs := [dirname (filenameForUrl "c" "u")],
    unlinkFails := [filenameForUrl "c" "u" ++ ".meta"],
    timers := [] }

/-- A GET request for URL `"u"` whose response has status code 500. -/
def req500 : Req := ⟨"GET", [], false, ⟨"u", 500, [], []⟩⟩

/-- A GET request for URL `"u"` carrying `Cache-Control: no-cache`, whose
response is a cacheable 200. -/
def reqNoCache : Req :=
  ⟨"GET", [("cache-control", "no-cache")], false,
   ⟨"u", 200, [("content-type", "text/html")], [104]⟩⟩

/-- A cache state holding a valid entry for URL `"u"`, written at 0 ms. -/
def fsWithEntry : FS :=
  set "c" 10 "u" 200 [("content-type", "text/html")] [104] 0 FS.empty

/-! Helper lemmas about the filesystem model. -/

/-- The `.data` and `.meta` siblings of one base path are distinct. -/
lemma data_ne_meta (s : String) : s ++ ".data" ≠ s ++ ".meta" := by
  intro h
  have h2 : (s ++ ".data").data = (s ++ ".meta").data :=
    congrArg String.data h
  simp [String.data_append] at h2

/-- Filtering a path out of a file list makes lookup of that path fail. -/
lemma find?_filter_self (l : List (String × FileRecord)) (p : String) :
    (l.filter (fun e => e.1 != p)).find? (fun e => e.1 == p) = none := by
  induction l with
  | nil => rfl
  | cons a l ih =>
    by_cases h : a.1 = p
    · rw [List.filter_cons_of_neg (by simp [h])]
      exact ih
    · rw [List.filter_cons_of_pos (by simp [h]),
        List.find?_cons_of_neg _ (by simp [h])]
      exact ih

/-- Filtering one path out of a file list leaves lookup of any other path
unchanged. -/
lemma find?_filter_other (l : List (String × FileRecord)) (p q : String)
    (h : q ≠ p) :
    (l.filter (fun e => e.1 != p)).find? (fun e => e.1 == q) =
      l.find? (fun e => e.1 == q) := by
  induction l with
  | nil => rfl
  | cons a l ih =>
    by_cases h1 : a.1 = p
    · have h2 : a.1 ≠ q := by rw [h1]; exact fun hq => h hq.symm
      rw [List.filter_cons_of_neg (by simp [h1]),
        List.find?_cons_of_neg _ (by simp [h2])]
      exact ih
    · by_cases h2 : a.1 = q
      · rw [List.filter_cons_of_pos (by simp [h1]),
          List.find?_cons_of_pos _ (by simp [h2]),
          List.find?_cons_of_pos _ (by simp [h2])]
      · rw [List.filter_cons_of_pos (by simp [h1]),
          List.find?_cons_of_neg _ (by simp [h2]),
          List.find?_cons_of_neg _ (by simp [h2])]
        exact ih

/-- `ensureDirExists` never touches the files. -/
lemma files_ensureDirExists (fs : FS) (d : String) :
    (ensureDirExists fs d).files = fs.files := by
  simp only [ensureDirExists]
  split <;> rfl

/-- `ensureDirExists` never touches the fault set. -/
lemma unlinkFails_ensureDirExists (fs : FS) (d : String) :
    (ensureDirExists fs d).unlinkFails = fs.unlinkFails := by
  simp only [ensureDirExists]
  split <;> rfl

/-- `removeDirectoryIfEmpty` never touches the files. -/
lemma files_removeDirectoryIfEmpty (fs : FS) (d : String) :
    (removeDirectoryIfEmpty fs d).files = fs.files := by
  simp only [removeDirectoryIfEmpty]
  split <;> rfl

/-- Lookup of the just-written path. -/
lemma findFile_writeFile_self (fs : FS) (p : String) (c : FileContent)
    (t : Nat) : (fs.writeFile p c t).findFile p = some ⟨t, c⟩ := by
  simp [FS.writeFile, FS.findFile, List.find?]

/-- Lookup of a different path is unchanged by a write. -/
lemma findFile_writeFile_other (fs : FS) {p q : String} (c : FileContent)
    (t : Nat) (h : q ≠ p) :
    (fs.writeFile p c t).findFile q = fs.findFile q := by
  simp only [FS.writeFile, FS.findFile]
  rw [List.find?_cons_of_neg _ (by simp; exact fun hc => h hc.symm),
    find?_filter_other fs.files p q h]

/-- Unfolding of `set`'s effect on lookups: the timer registration does
not affect the files, so lookup goes through the two writes. -/
lemma findFile_set (cp : String) (ttl : Nat) (url : String) (sc : Int)
    (H : List (String × String)) (B : Bytes) (now : Nat) (fs : FS)
    (q : String) :
    (set cp ttl url sc H B now fs).findFile q =
      (((ensureDirExists fs (dirname (filenameForUrl cp url))).writeFile
          (filenameForUrl cp url ++ ".data") (.bytes (gzip B)) now).writeFile
          (filenameForUrl cp url ++ ".meta")
          (.metaJson ⟨sc, filteredHeaders H⟩) now).findFile q := rfl

/-- After `set`, the `.meta` file holds exactly the serialized metadata
record with the filtered headers, stamped at the write time. -/
lemma findFile_set_meta (cp : String) (ttl : Nat) (url : String) (sc : Int)
    (H : List (String × String)) (B : Bytes) (now : Nat) (fs : FS) :
    (set cp ttl url sc H B now fs).findFile
        (filenameForUrl cp url ++ ".meta") =
      some ⟨now, .metaJson ⟨sc, filteredHeaders H⟩⟩ := by
  rw [findFile_set]
  exact findFile_writeFile_self _ _ _ _

/-- After `set`, the `.data` file holds exactly the gzip of the body,
stamped at the write time. -/
lemma findFile_set_data (cp : String) (ttl : Nat) (url : String) (sc : Int)
    (H : List (String × String)) (B : Bytes) (now : Nat) (fs : FS) :
    (set cp ttl url sc H B now fs).findFile
        (filenameForUrl cp url ++ ".data") =
      some ⟨now, .bytes (gzip B)⟩ := by
  rw [findFile_set,
    findFile_writeFile_other _ _ _ (data_ne_meta (filenameForUrl cp url))]
  exact findFile_writeFile_self _ _ _ _

/-- Decompression inverts compression. -/
lemma gunzip_gzip (b : Bytes) : gunzip (gzip b) = some b := rfl

/-- A `get` immediately after a `set`, while the entry is unexpired,
returns the stored status code, the filtered headers and the original
body, and leaves the state untouched. -/
lemma get_after_set (cp : String) (ttl : Nat) (url : String) (sc : Int)
    (H : List (String × String)) (B : Bytes) (now now' : Nat) (fs : FS)
    (hfresh : isExpiredBasedOnMtime ttl now' now = false) :
    get cp ttl url now' (set cp ttl url sc H B now fs) =
      .ok (some ⟨sc, filteredHeaders H, B⟩)
        (set cp ttl url sc H B now fs) := by
  have hd := findFile_set_data cp ttl url sc H B now fs
  have hm := findFile_set_meta cp ttl url sc H B now fs
  simp [get, FS.hasFile, FS.statMtime, FS.readFile, hd, hm, hfresh,
    gunzipContent, gunzip_gzip, parseMeta]

/-- C1: for every URL `u`, headers `H` and body `B`, a `set(u, 200, H, B)`
followed by a `get(u)` before the entry expires returns an entry with
status code 200, headers `H` with the non-cacheable headers removed, and
a body byte-identical to `B` after decompression. -/
theorem set_then_get_roundtrip (cp : String) (ttl : Nat) (url : String)
    (H : List (String × String)) (B : Bytes) (now now' : Nat) (fs : FS)
    (hfresh : isExpiredBasedOnMtime ttl now' now = false) :
    get cp ttl url now' (set cp ttl url 200 H B now fs) =
      .ok (some ⟨200, filteredHeaders H, B⟩)
        (set cp ttl url 200 H B now fs) :=
  get_after_set cp ttl url 200 H B now now' fs hfresh

/-- Witness for C1 at a concrete input: URL `"u"`, a two-header map with
one non-cacheable header (`date`), body `[104, 105]`, written at 0 ms and
read back at 5000 ms with a 10-second TTL. -/
theorem set_then_get_roundtrip_witness :
    isExpiredBasedOnMtime 10 5000 0 = false ∧
    get "c" 10 "u" 5000
        (set "c" 10 "u" 200 [("Content-Type", "text/html"), ("date", "X")]
          [104, 105] 0 FS.empty) =
      .ok (some ⟨200, [("Content-Type", "text/html")], [104, 105]⟩)
        (set "c" 10 "u" 200 [("Content-Type", "text/html"), ("date", "X")]
          [104, 105] 0 FS.empty) :=
  ⟨by decide,
   (set_then_get_roundtrip "c" 10 "u"
      [("Content-Type", "text/html"), ("date", "X")] [104, 105] 0 5000
      FS.empty (by decide)).trans (by decide)⟩

/-- C3: any header whose lower-cased name is in the non-cacheable
deny-list is dropped by `set` before the metadata is persisted, so it is
absent from the headers of a subsequent `get` result for that URL. -/
theorem noncacheable_header_never_served (cp : String) (ttl : Nat)
    (url : String) (sc : Int) (H : List (String × String)) (B : Bytes)
    (now now' : Nat) (fs : FS) (k : String)
    (hk : nonCacheableHeaders.contains (toLowerCase k) = true)
    (hfresh : isExpiredBasedOnMtime ttl now' now = false) :
    ∀ e fsOut,
      get cp ttl url now' (set cp ttl url sc H B now fs) =
        .ok (some e) fsOut →
      ∀ v, (k, v) ∉ e.headers := by
  intro e fsOut hget v hmem
  rw [get_after_set cp ttl url sc H B now now' fs hfresh] at hget
  cases hget
  have h2 := (List.mem_filter.mp hmem).2
  simp at h2 hk
  exact h2 hk

/-- Witness for C3 at a concrete input: the header `("Date", "X")`, whose
lower-cased name is deny-listed, is absent from the entry served after
storing it. -/
theorem noncacheable_header_never_served_witness :
    nonCacheableHeaders.contains (toLowerCase "Date") = true ∧
    ("Date", "X") ∉
      (Entry.mk 200 [("content-type", "text/html")] [104]).headers :=
  ⟨by decide,
   noncacheable_header_never_served "c" 10 "u" 200
     [("content-type", "text/html"), ("Date", "X")] [104] 0 5000 FS.empty
     "Date" (by decide) (by decide)
     ⟨200, [("content-type", "text/html")], [104]⟩
     (set "c" 10 "u" 200 [("content-type", "text/html"), ("Date", "X")]
       [104] 0 FS.empty)
     (by decide) "X"⟩

/-- C8 counterexample: `set` persists header names verbatim — storing the
header `("Content-Type", "text/html")` writes the key `"Content-Type"`
into the `.meta` file, and that key is not lower-cased. -/
theorem stored_header_key_not_lowercased :
    (set "c" 10 "u" 200 [("Content-Type", "text/html")] [] 0
        FS.empty).readFile (filenameForUrl "c" "u" ++ ".meta") =
      some (.metaJson ⟨200, [("Content-Type", "text/html")]⟩) ∧
    toLowerCase "Content-Type" ≠ "Content-Type" := by decide

/-- C8 amended: the headers mapping written to the `.meta` file is the
input headers filtered by lower-cased membership in the deny-list, with
each surviving header name persisted exactly as supplied (not
lower-cased). -/
theorem stored_headers_filtered_verbatim (cp : String) (ttl : Nat)
    (url : String) (sc : Int) (H : List (String × String)) (B : Bytes)
    (now : Nat) (fs : FS) :
    (set cp ttl url sc H B now fs).readFile
        (filenameForUrl cp url ++ ".meta") =
      some (.metaJson ⟨sc, filteredHeaders H⟩) ∧
    ∀ kv, kv ∈ filteredHeaders H → kv ∈ H := by
  refine ⟨?_, ?_⟩
  · rw [FS.readFile, findFile_set_meta]
    rfl
  · intro kv hkv
    exact (List.mem_filter.mp hkv).1

/-- Witness for the amended C8 at a concrete input. -/
theorem stored_headers_filtered_verbatim_witness :
    (set "c" 10 "u" 200 [("Content-Type", "text/html")] [] 0
        FS.empty).readFile (filenameForUrl "c" "u" ++ ".meta") =
      some (.metaJson ⟨200, [("Content-Type", "text/html")]⟩) ∧
    ("Content-Type", "text/html") ∈
      [("Content-Type", "text/html")] :=
  ⟨((stored_headers_filtered_verbatim "c" 10 "u" 200
      [("Content-Type", "text/html")] [] 0 FS.empty).1).trans (by decide),
   (stored_headers_filtered_verbatim "c" 10 "u" 200
      [("Content-Type", "text/html")] [] 0 FS.empty).2
     ("Content-Type", "text/html") (by decide)⟩

/-- A file is present exactly when its lookup succeeds. -/
lemma hasFile_of_statMtime (fs : FS) (p : String) (m : Nat)
    (h : fs.statMtime p = some m) : fs.hasFile p = true := by
  unfold FS.hasFile
  unfold FS.statMtime at h
  cases hf : fs.findFile p with
  | none => rw [hf] at h; cases h
  | some r => rfl

/-- The state `get`'s expiry path leaves behind: both siblings filtered
out of the file list. -/
def pairRemoved (cp url : String) (fs : FS) : FS :=
  { fs with files :=
      ((fs.files.filter
          (fun e => e.1 != filenameForUrl cp url ++ ".meta")).filter
        (fun e => e.1 != filenameForUrl cp url ++ ".data")) }

/-- Neither sibling survives in `pairRemoved`. -/
lemma pairRemoved_hasFile (cp url : String) (fs : FS) :
    (pairRemoved cp url fs).hasFile (filenameForUrl cp url ++ ".data")
        = false ∧
    (pairRemoved cp url fs).hasFile (filenameForUrl cp url ++ ".meta")
        = false := by
  constructor
  · simp only [pairRemoved, FS.hasFile, FS.findFile]
    rw [find?_filter_self]
    rfl
  · simp only [pairRemoved, FS.hasFile, FS.findFile]
    rw [find?_filter_other _ _ _
        (Ne.symm (data_ne_meta (filenameForUrl cp url))),
      find?_filter_self]
    rfl

/-- On an expired entry whose two files exist and can be unlinked, `get`
returns a miss and removes both files. -/
lemma get_expired_removes_pair (cp : String) (ttl : Nat) (url : String)
    (now mtime : Nat) (fs : FS)
    (hdata : fs.hasFile (filenameForUrl cp url ++ ".data") = true)
    (hmeta : fs.statMtime (filenameForUrl cp url ++ ".meta") = some mtime)
    (hexp : isExpiredBasedOnMtime ttl now mtime = true)
    (hfm : fs.unlinkFails.contains (filenameForUrl cp url ++ ".meta")
        = false)
    (hfd : fs.unlinkFails.contains (filenameForUrl cp url ++ ".data")
        = false) :
    get cp ttl url now fs = .ok none (pairRemoved cp url fs) := by
  have hm' := hasFile_of_statMtime fs _ _ hmeta
  have h2 : ({ fs with files := (fs.files.filter
      (fun e => e.1 != filenameForUrl cp url ++ ".meta")) } : FS).hasFile
      (filenameForUrl cp url ++ ".data") = true := by
    simp only [FS.hasFile, FS.findFile] at hdata ⊢
    rw [find?_filter_other _ _ _ (data_ne_meta (filenameForUrl cp url))]
    exact hdata
  have hfd' : (filenameForUrl cp url ++ ".data") ∉ fs.unlinkFails := by
    simpa using hfd
  simp only [get, FS.unlink, hdata, hm', hmeta, hexp, hfm, hfd, h2]
  simp [pairRemoved, hfd', h2]

/-- C2: a `get` on an entry whose `.meta` mtime is TTL seconds or more in
the past never returns the entry: it returns a miss, and both the `.meta`
and `.data` files are removed as a side effect of that `get` call
(provided the unlinks themselves do not fail, see C6). -/
theorem get_expired_misses_and_removes_files (cp : String) (ttl : Nat)
    (url : String) (now mtime : Nat) (fs : FS)
    (hdata : fs.hasFile (filenameForUrl cp url ++ ".data") = true)
    (hmeta : fs.statMtime (filenameForUrl cp url ++ ".meta") = some mtime)
    (hexp : isExpiredBasedOnMtime ttl now mtime = true)
    (hfm : fs.unlinkFails.contains (filenameForUrl cp url ++ ".meta")
        = false)
    (hfd : fs.unlinkFails.contains (filenameForUrl cp url ++ ".data")
        = false) :
    ∃ fs', get cp ttl url now fs = .ok none fs' ∧
      fs'.hasFile (filenameForUrl cp url ++ ".data") = false ∧
      fs'.hasFile (filenameForUrl cp url ++ ".meta") = false :=
  ⟨pairRemoved cp url fs,
   get_expired_removes_pair cp ttl url now mtime fs hdata hmeta hexp
     hfm hfd,
   (pairRemoved_hasFile cp url fs).1,
   (pairRemoved_hasFile cp url fs).2⟩

/-- Witness for C2 at a concrete input: an entry written at 0 ms read at
10000 ms with a 10-second TTL is exactly at its expiry bound. -/
theorem get_expired_misses_and_removes_files_witness :
    ∃ fs', get "c" 10 "u" 10000 fsWithEntry = .ok none fs' ∧
      fs'.hasFile (filenameForUrl "c" "u" ++ ".data") = false ∧
      fs'.hasFile (filenameForUrl "c" "u" ++ ".meta") = false :=
  get_expired_misses_and_removes_files "c" 10 "u" 10000 0 fsWithEntry
    (by decide) (by decide) (by decide) (by decide) (by decide)

/-- C5: `get` resolves absence of either file, a body that fails to
decompress, and metadata that fails to parse all to a miss, without
raising and without touching the state. -/
theorem get_absent_or_corrupt_is_miss (cp : String) (ttl : Nat)
    (url : String) (now : Nat) (fs : FS)
    (h :
      fs.hasFile (filenameForUrl cp url ++ ".data") = false ∨
      fs.hasFile (filenameForUrl cp url ++ ".meta") = false ∨
      (∃ mtime,
        fs.statMtime (filenameForUrl cp url ++ ".meta") = some mtime ∧
        isExpiredBasedOnMtime ttl now mtime = false ∧
        ((∃ dc, fs.readFile (filenameForUrl cp url ++ ".data") = some dc ∧
            gunzipContent dc = none) ∨
         (∃ mc, fs.readFile (filenameForUrl cp url ++ ".meta") = some mc ∧
            parseMeta mc = none)))) :
    get cp ttl url now fs = .ok none fs := by
  rcases h with h | h | ⟨mtime, hmt, hfr, hbad⟩
  · simp [get, h]
  · simp [get, h]
  · cases hd : fs.hasFile (filenameForUrl cp url ++ ".data") with
    | false => simp [get, hd]
    | true =>
      rcases hbad with ⟨dc, hdc, hg⟩ | ⟨mc, hmc, hp⟩
      · simp [get, hd, hasFile_of_statMtime fs _ _ hmt, hmt, hfr, hdc, hg]
      · cases hdc : fs.readFile (filenameForUrl cp url ++ ".data") with
        | none => simp [get, hd, hasFile_of_statMtime fs _ _ hmt, hmt,
            hfr, hdc]
        | some dc =>
          cases hg : gunzipContent dc with
          | none => simp [get, hd, hasFile_of_statMtime fs _ _ hmt, hmt,
              hfr, hdc, hg]
          | some content =>
            simp [get, hd, hasFile_of_statMtime fs _ _ hmt, hmt, hfr,
              hdc, hg, hmc, hp]

/-- Witness for C5 at a concrete input: a URL that was never stored. -/
theorem get_absent_or_corrupt_is_miss_witness :
    get "c" 10 "never-set" 0 FS.empty = .ok none FS.empty :=
  get_absent_or_corrupt_is_miss "c" 10 "never-set" 0 FS.empty
    (Or.inl (by decide))

/-- `removeExpiredCacheUrl` never raises: its whole body is inside a
catch-all that logs and swallows every error. -/
lemma removeExpiredCacheUrl_ok (cp url : String) (fs : FS) :
    ∃ fs1, removeExpiredCacheUrl cp url fs = .ok () fs1 := by
  unfold removeExpiredCacheUrl
  cases h1 : fs.unlink (filenameForUrl cp url ++ ".data") with
  | error e fs1 => exact ⟨fs1, by simp [h1]⟩
  | ok v fs1 =>
    cases h2 : fs1.unlink (filenameForUrl cp url ++ ".meta") with
    | error e fs2 => exact ⟨fs2, by simp [h1, h2]⟩
    | ok v2 fs2 =>
      exact ⟨removeDirectoryIfEmpty fs2 (dirname (filenameForUrl cp url)),
        by simp [h1, h2]⟩

/-- C10: invoking the expiry removal twice in succession produces no
error on either call — in particular, on the second call, when the
entry's files are already absent, the `ENOENT` errors are swallowed. -/
theorem expiry_removal_twice_no_error (cp url : String) (fs : FS) :
    ∃ fs1 fs2, removeExpiredCacheUrl cp url fs = .ok () fs1 ∧
      removeExpiredCacheUrl cp url fs1 = .ok () fs2 := by
  obtain ⟨fs1, h1⟩ := removeExpiredCacheUrl_ok cp url fs
  obtain ⟨fs2, h2⟩ := removeExpiredCacheUrl_ok cp url fs1
  exact ⟨fs1, fs2, h1, h2⟩

/-- C6 (code bug): on an expired entry whose `.meta` file cannot be
unlinked, `get` propagates the raised `EACCES` error to its caller
instead of logging it and returning a miss — the expiry-path unlinks in
the source are not wrapped in a try/catch, contradicting the spec's
"best-effort; log but do not raise on deletion failure". -/
theorem get_expiry_unlink_failure_raises :
    get "c" 1 "u" 1000 faultedExpiredFS =
      .error "EACCES" faultedExpiredFS := by decide

/-- C7 counterexample: the cleanup sweep decides expiry per file, so on a
pair whose two files have different modification times (here 0 ms and
5000 ms, TTL 10 s, sweep at 10000 ms) it removes the expired `.data`
file while its unexpired `.meta` sibling persists — a reachable state
with exactly one file of a pair. -/
theorem sweep_removes_single_file_of_pair :
    (cleanUpCacheDirectory 10 10000 "c" skewedPairFS).hasFile
        (filenameForUrl "c" "u" ++ ".data") = false ∧
    (cleanUpCacheDirectory 10 10000 "c" skewedPairFS).hasFile
        (filenameForUrl "c" "u" ++ ".meta") = true := by decide

/-- `removeExpiredCacheUrl` on an entry whose two files exist and can be
unlinked removes both files. -/
lemma removeExpiredCacheUrl_removes_pair (cp url : String) (fs : FS)
    (hdata : fs.hasFile (filenameForUrl cp url ++ ".data") = true)
    (hmeta : fs.hasFile (filenameForUrl cp url ++ ".meta") = true)
    (hfd : fs.unlinkFails.contains (filenameForUrl cp url ++ ".data")
        = false)
    (hfm : fs.unlinkFails.contains (filenameForUrl cp url ++ ".meta")
        = false) :
    ∃ fs', removeExpiredCacheUrl cp url fs = .ok () fs' ∧
      fs'.hasFile (filenameForUrl cp url ++ ".data") = false ∧
      fs'.hasFile (filenameForUrl cp url ++ ".meta") = false := by
  have hm1 : ({ fs with files := (fs.files.filter
      (fun e => e.1 != filenameForUrl cp url ++ ".data")) } : FS).hasFile
      (filenameForUrl cp url ++ ".meta") = true := by
    simp only [FS.hasFile, FS.findFile] at hmeta ⊢
    rw [find?_filter_other _ _ _
      (Ne.symm (data_ne_meta (filenameForUrl cp url)))]
    exact hmeta
  refine ⟨removeDirectoryIfEmpty
    { fs with files := (((fs.files.filter
        (fun e => e.1 != filenameForUrl cp url ++ ".data")).filter
        (fun e => e.1 != filenameForUrl cp url ++ ".meta"))) }
    (dirname (filenameForUrl cp url)), ?_, ?_, ?_⟩
  · have hfm' : (filenameForUrl cp url ++ ".meta") ∉ fs.unlinkFails := by
      simpa using hfm
    simp only [removeExpiredCacheUrl, FS.unlink, hdata, hmeta, hfd, hfm,
      hm1]
    simp [hfm', hm1]
  · rw [FS.hasFile, FS.findFile, files_removeDirectoryIfEmpty]
    rw [show ∀ ds us ts l, (FS.mk l ds us ts).files = l from
      fun _ _ _ _ => rfl]
    rw [find?_filter_other _ _ _ (data_ne_meta (filenameForUrl cp url)),
      find?_filter_self]
    rfl
  · rw [FS.hasFile, FS.findFile, files_removeDirectoryIfEmpty]
    rw [show ∀ ds us ts l, (FS.mk l ds us ts).files = l from
      fun _ _ _ _ => rfl]
    rw [find?_filter_self]
    rfl

/-- C7 amended: `set` writes the two files together, and both `get`'s
expiry path and the per-write deletion `removeExpiredCacheUrl` remove
the two files together (when both are present and removable); but the
tree sweep removes each file independently, so a state with exactly one
file of a pair is reachable (see the counterexample). -/
theorem pair_written_and_removed_together (cp : String) (ttl : Nat)
    (url : String) (sc : Int) (H : List (String × String)) (B : Bytes)
    (now now' mtime : Nat) (fs fsE : FS)
    (hdata : fsE.hasFile (filenameForUrl cp url ++ ".data") = true)
    (hmeta : fsE.statMtime (filenameForUrl cp url ++ ".meta")
        = some mtime)
    (hexp : isExpiredBasedOnMtime ttl now' mtime = true)
    (hfm : fsE.unlinkFails.contains (filenameForUrl cp url ++ ".meta")
        = false)
    (hfd : fsE.unlinkFails.contains (filenameForUrl cp url ++ ".data")
        = false) :
    ((set cp ttl url sc H B now fs).hasFile
        (filenameForUrl cp url ++ ".data") = true ∧
     (set cp ttl url sc H B now fs).hasFile
        (filenameForUrl cp url ++ ".meta") = true) ∧
    (∃ fs', get cp ttl url now' fsE = .ok none fs' ∧
      fs'.hasFile (filenameForUrl cp url ++ ".data") = false ∧
      fs'.hasFile (filenameForUrl cp url ++ ".meta") = false) ∧
    (∃ fs', removeExpiredCacheUrl cp url fsE = .ok () fs' ∧
      fs'.hasFile (filenameForUrl cp url ++ ".data") = false ∧
      fs'.hasFile (filenameForUrl cp url ++ ".meta") = false) := by
  refine ⟨⟨?_, ?_⟩, ?_, ?_⟩
  · rw [FS.hasFile, findFile_set_data]
    rfl
  · rw [FS.hasFile, findFile_set_meta]
    rfl
  · exact ⟨pairRemoved cp url fsE,
      get_expired_removes_pair cp ttl url now' mtime fsE hdata hmeta hexp
        hfm hfd,
      (pairRemoved_hasFile cp url fsE).1,
      (pairRemoved_hasFile cp url fsE).2⟩
  · exact removeExpiredCacheUrl_removes_pair cp url fsE hdata
      (hasFile_of_statMtime fsE _ _ hmeta) hfd hfm

/-- Witness for the amended C7 at a concrete input. -/
theorem pair_written_and_removed_together_witness :
    ((set "c" 10 "u" 200 [] [104] 0 FS.empty).hasFile
        (filenameForUrl "c" "u" ++ ".data") = true ∧
     (set "c" 10 "u" 200 [] [104] 0 FS.empty).hasFile
        (filenameForUrl "c" "u" ++ ".meta") = true) ∧
    (∃ fs', get "c" 10 "u" 10000 fsWithEntry = .ok none fs' ∧
      fs'.hasFile (filenameForUrl "c" "u" ++ ".data") = false ∧
      fs'.hasFile (filenameForUrl "c" "u" ++ ".meta") = false) ∧
    (∃ fs', removeExpiredCacheUrl "c" "u" fsWithEntry = .ok () fs' ∧
      fs'.hasFile (filenameForUrl "c" "u" ++ ".data") = false ∧
      fs'.hasFile (filenameForUrl "c" "u" ++ ".meta") = false) :=
  pair_written_and_removed_together "c" 10 "u" 200 [] [104] 0 10000 0
    FS.empty fsWithEntry (by decide) (by decide) (by decide) (by decide)
    (by decide)

/-- C4: the Facade's store hook invokes `set` exactly when the request
method is GET, the response status code is in the configured allow-list,
and the response was not itself served from cache; when it does not
invoke `set` the store state is untouched; and 500 is not in the default
allow-list. -/
theorem beforeSend_stores_only_eligible (cp : String) (ttl : Nat)
    (codes : List Int) (now : Nat) (req : Req) (fs : FS) :
    ((beforeSend cp ttl codes now req fs).1 =
      (req.method == "GET" && codes.contains req.prerender.statusCode
        && !req.fromCache)) ∧
    ((beforeSend cp ttl codes now req fs).1 = false →
      (beforeSend cp ttl codes now req fs).2 = fs) ∧
    CACHE_STATUS_CODES.contains 500 = false := by
  refine ⟨?_, ?_, by decide⟩
  · unfold beforeSend
    split
    · rename_i h
      exact h.symm
    · rename_i h
      simp only [Bool.not_eq_true] at h
      exact h.symm
  · unfold beforeSend
    split
    · intro hc
      simp at hc
    · intro _
      rfl

/-- Witness for C4 at a concrete input: a GET request whose response has
status 500 — outside the default allow-list — leaves the store state
untouched. -/
theorem beforeSend_stores_only_eligible_witness :
    (beforeSend "c" 10 CACHE_STATUS_CODES 0 req500 FS.empty).2
      = FS.empty :=
  (beforeSend_stores_only_eligible "c" 10 CACHE_STATUS_CODES 0 req500
    FS.empty).2.1 (by decide)

/-- C9: a GET request carrying `Cache-Control: no-cache` is never served
from cache — the lookup hook passes the pipeline on with the request
unchanged and the state untouched, whatever the cache holds — while the
store hook afterwards still invokes `set` when the response is otherwise
eligible. -/
theorem no_cache_directive_forces_miss (cp : String) (ttl : Nat)
    (codes : List Int) (now : Nat) (req : Req) (fs : FS)
    (hm : req.method = "GET")
    (hcc : headerLookup req.headers "cache-control" = some "no-cache") :
    requestReceived cp ttl now req fs = .ok (req, .next) fs ∧
    (codes.contains req.prerender.statusCode = true →
      req.fromCache = false →
      (beforeSend cp ttl codes now req fs).1 = true) := by
  constructor
  · simp [requestReceived, hm, hcc]
  · intro hc hfc
    have hc' : req.prerender.statusCode ∈ codes := by simpa using hc
    simp [beforeSend, hm, hc', hfc]

/-- Witness for C9 at a concrete input: the request carries the
directive, the cache holds a valid unexpired entry for the URL, and the
response is an eligible 200. -/
theorem no_cache_directive_forces_miss_witness :
    requestReceived "c" 10 5000 reqNoCache fsWithEntry =
      .ok (reqNoCache, .next) fsWithEntry ∧
    (beforeSend "c" 10 CACHE_STATUS_CODES 5000 reqNoCache fsWithEntry).1
      = true :=
  have h := no_cache_directive_forces_miss "c" 10 CACHE_STATUS_CODES 5000
    reqNoCache fsWithEntry (by decide) (by decide)
  ⟨h.1, h.2 (by decide) (by decide)⟩

end Fscache
